import Mathlib

/-!
Verification development for the torchrl data-collector module
(src/torchrl/collectors/collectors.py).

The embedding models:
  * the per-lane bookkeeping fields of the live rollout tensordict
    (`traj_ids`, `step_count`, `done`, observation) as functions from the
    lane index, together with the number of lanes;
  * `SyncDataCollector._reset_if_necessary` and `SyncDataCollector.rollout`
    as pure state transformers, with the stochastic environment and the
    bernoulli lag draws supplied by oracles;
  * the `MultiSyncDataCollector.iterator` merge step, the
    `MultiaSyncDataCollector.iterator` dispatch loop, the
    `_main_async_collector` worker loop, `_MultiDataCollector.set_seed`,
    and the `total_frames` normalisation of the constructors.
-/

/-- One lane of the live rollout tensordict `self._tensordict`: the
bookkeeping keys `traj_ids`, `step_count`, `done` plus a stand-in
observation field for the remaining env/policy keys. -/
structure LaneView where
  trajId : Nat
  stepCount : Nat
  done : Bool
  obs : Int
deriving Repr, DecidableEq

/-- The live rollout tensordict of a `SyncDataCollector`: `n` lanes
(the flattened env batch), each holding a `LaneView`. -/
structure RState where
  n : Nat
  lane : Nat → LaneView

/-- Default lane record (all fields zero). -/
def zeroLane : LaneView := { trajId := 0, stepCount := 0, done := false, obs := 0 }

/-- Default rollout state, used only as a `getD` fallback. -/
def dummyRState : RState := { n := 0, lane := fun _ => zeroLane }

/-- `done_or_terminated = done | (steps == self.max_frames_per_traj)`
(collectors.py line 407): lane `i` is flagged terminal this step. The
`step_count` tensor holds machine integers, so the comparison with the
(possibly negative) `max_frames_per_traj` is taken over `Int`. -/
def doneOrTerminatedMask (mfpt : Int) (s : RState) (i : Nat) : Bool :=
  (s.lane i).done || (((s.lane i).stepCount : Int) == mfpt)

/-- Update of `self._has_been_done` (collectors.py lines 408-411): first
call stores the mask, later calls accumulate it with `|`. -/
def updateHasBeenDone (hbd : Option (Nat → Bool)) (m : Nat → Bool) : Nat → Bool :=
  match hbd with
  | none => m
  | some h => fun i => h i || m i

/-- `mask.all()` over the `n` lanes. -/
def allMask (n : Nat) (m : Nat → Bool) : Bool := (List.range n).all m

/-- `mask.any()` over the `n` lanes. -/
def anyMask (n : Nat) (m : Nat → Bool) : Bool := (List.range n).any m

/-- The mask of lanes actually reset (collectors.py lines 412-417): when
not all lanes have been done and `init_with_lag` holds, a bernoulli draw
(`draw`, sampled at rate `1/max_frames_per_traj` in the source) may force
extra resets, but lanes already flagged in `has_been_done` are masked out
(`_reset[self._has_been_done] = False`). -/
def effectiveResetMask (lag : Bool) (draw : Nat → Bool) (n : Nat)
    (dOT hbd2 : Nat → Bool) : Nat → Bool :=
  if !allMask n hbd2 && lag then fun i => dOT i || (draw i && !hbd2 i) else dOT

/-- `traj_ids.max()` (collectors.py line 434): maximum trajectory id over
all lanes, as the fold torch computes on the flattened tensor. -/
def maxTrajId (s : RState) : Nat :=
  ((List.range s.n).map (fun i => (s.lane i).trajId)).foldl Nat.max 0

/-- `self._tensordict.masked_fill_(done_or_terminated, 0)`
(collectors.py line 422): every field of a masked lane is zeroed. -/
def maskedZero (s : RState) (m : Nat → Bool) : RState :=
  { n := s.n, lane := fun i => if m i then zeroLane else s.lane i }

/-- `self.env.reset()` on the lanes named by `reset_workers` followed by
`self._tensordict.update(self.env.current_tensordict)` (collectors.py
lines 423-427): reset lanes receive a fresh observation from the
environment and report `done = False` (the source raises if any lane is
done after the reset, line 428). -/
def envResetUpdate (s : RState) (m : Nat → Bool) (freshObs : Nat → Int) : RState :=
  { n := s.n
    lane := fun i =>
      if m i then { s.lane i with obs := freshObs i, done := false } else s.lane i }

/-- `traj_ids[done_or_terminated] = traj_ids.max() + torch.arange(1, k+1)`
and `steps[done_or_terminated] = 0` (collectors.py lines 434-439), applied
on top of the zeroing and the environment reset. `traj_ids` and `steps`
were cloned before the zeroing, so the maximum and the surviving values
come from the original state `s`, and the boolean-mask assignment hands
masked lane `i` the id `maxTrajId s + 1 + (rank of i among masked lanes)`. -/
def resetLanes (s : RState) (m : Nat → Bool) (freshObs : Nat → Int) : RState :=
  let mx := maxTrajId s
  let z := maskedZero s m
  let e := envResetUpdate z m freshObs
  { n := s.n
    lane := fun i =>
      { e.lane i with
        trajId := if m i then mx + 1 + (List.range i).countP m else (s.lane i).trajId
        stepCount := if m i then 0 else (s.lane i).stepCount } }

/-- Rollout-engine bookkeeping state that survives across
`rollout` calls: the live tensordict and `self._has_been_done`. -/
structure BookState where
  s : RState
  hbd : Option (Nat → Bool)

/-- `SyncDataCollector._reset_if_necessary` (collectors.py lines 404-439):
compute the terminal mask, accumulate `has_been_done`, optionally widen the
mask with the lag draw, and when any lane is flagged, zero it, reset it in
the environment, zero its step count and bump its trajectory id. -/
def resetIfNecessary (mfpt : Int) (lag : Bool) (draw : Nat → Bool)
    (freshObs : Nat → Int) (b : BookState) : BookState :=
  let dOT := doneOrTerminatedMask mfpt b.s
  let hbd2 := updateHasBeenDone b.hbd dOT
  let m := effectiveResetMask lag draw b.s.n dOT hbd2
  if anyMask b.s.n m then
    { s := resetLanes b.s m freshObs, hbd := some hbd2 }
  else
    { s := b.s, hbd := some hbd2 }

/-- Static configuration of one rollout engine (`SyncDataCollector`
attributes): `frames_per_batch` after the ceil division by the number of
lanes, `max_frames_per_traj`, `reset_at_each_iter` and `init_with_lag`. -/
structure EngineCfg where
  framesPerBatch : Nat
  maxFramesPerTraj : Int
  resetAtEachIter : Bool
  initWithLag : Bool

/-- Oracles standing for the environment and the random draws during one
run: per step `t` the done flags and observations written by
`env.step`/`env.rand_step`, the bernoulli lag draws, the fresh
observations of a mid-rollout reset, and the observations of the
`reset_at_each_iter` reset at the top of a call. -/
structure EnvOracle where
  stepDone : Nat → Nat → Bool
  stepObs : Nat → Nat → Int
  lagDraw : Nat → Nat → Bool
  resetObs : Nat → Nat → Int
  initResetObs : Nat → Int

/-- One `env.step` (or `env.rand_step`) followed by `step_count += 1`
(collectors.py lines 460-469): the environment writes the `done` flag and
the observation, the collector increments every lane step count;
trajectory ids are untouched. -/
def envStepIncr (o : EnvOracle) (t : Nat) (s : RState) : RState :=
  { n := s.n
    lane := fun i =>
      { trajId := (s.lane i).trajId
        stepCount := (s.lane i).stepCount + 1
        done := o.stepDone t i
        obs := o.stepObs t i } }

/-- One iteration of the rollout loop body (collectors.py lines 459-473):
step the env, increment step counts, snapshot the tensordict
(`self._tensordict.clone()`, appended to the output list BEFORE
`_reset_if_necessary` runs), then perform the reset bookkeeping. Returns
the captured snapshot and the post-reset bookkeeping state. -/
def rolloutIter (cfg : EngineCfg) (o : EnvOracle) (t : Nat) (b : BookState) :
    RState × BookState :=
  let captured := envStepIncr o t b.s
  let b2 := resetIfNecessary cfg.maxFramesPerTraj cfg.initWithLag
    (o.lagDraw t) (o.resetObs t) { s := captured, hbd := b.hbd }
  (captured, b2)

/-- The `for t in range(self.frames_per_batch)` loop of `rollout`
(collectors.py line 459): `k` iterations remaining, `t` the index of the
next one; returns the list of captured snapshots and the final state. -/
def rolloutLoop (cfg : EngineCfg) (o : EnvOracle) :
    Nat → Nat → BookState → List RState × BookState
  | 0, _, b => ([], b)
  | k + 1, t, b =>
    let p := rolloutIter cfg o t b
    let r := rolloutLoop cfg o k (t + 1) p.2
    (p.1 :: r.1, r.2)

/-- The entry of `rollout` (collectors.py lines 449-455): the optional
`reset_at_each_iter` full reset (fresh observations, `done` cleared,
`step_count` filled with 0), then the unconditional
`self._tensordict.set("traj_ids", torch.arange(n).unsqueeze(-1))` which
reassigns lane `i` the trajectory id `i` on EVERY call. -/
def startLanes (cfg : EngineCfg) (o : EnvOracle) (b : BookState) : BookState :=
  let s0 :=
    if cfg.resetAtEachIter then
      { n := b.s.n
        lane := fun i =>
          { b.s.lane i with done := false, obs := o.initResetObs i, stepCount := 0 } }
    else b.s
  { s := { n := s0.n, lane := fun i => { s0.lane i with trajId := i } }, hbd := b.hbd }

/-- `SyncDataCollector.rollout` (collectors.py lines 441-482): entry
bookkeeping, then `frames_per_batch` loop iterations; the returned block
is the time-ordered list of captured snapshots (the torch.stack of the
clones), and the engine state is threaded to the next call. -/
def rollout (cfg : EngineCfg) (o : EnvOracle) (b : BookState) :
    List RState × BookState :=
  rolloutLoop cfg o cfg.framesPerBatch 0 (startLanes cfg o b)

/-- Engine bookkeeping state after running `m` loop iterations from state
`b`, the first one carrying step index `t`. -/
def bookStepFrom (cfg : EngineCfg) (o : EnvOracle) (b : BookState) (t : Nat) :
    Nat → BookState
  | 0 => b
  | m + 1 => (rolloutIter cfg o (t + m) (bookStepFrom cfg o b t m)).2

/-- Engine bookkeeping state before loop iteration `t` of a call that
started in state `b0` (after the call-entry bookkeeping). -/
def bookAt (cfg : EngineCfg) (o : EnvOracle) (b0 : BookState) (t : Nat) :
    BookState :=
  bookStepFrom cfg o b0 0 t

/-- One worker block as seen by the sync merge: the `traj_ids` tensor of
the worker output, one list of ids per lane (lane-major, time inner). -/
def TrajBlock : Type := List (List Nat)

instance : DecidableEq TrajBlock := by
  unfold TrajBlock
  infer_instance

/-- Maximum id of one lane row, as the fold torch computes. -/
def laneMax (l : List Nat) : Nat := l.foldl Nat.max 0

/-- `traj_ids.max()` over a whole worker block. -/
def blockMax (b : TrajBlock) : Nat := (b.map laneMax).foldl Nat.max 0

/-- `traj_ids += max_traj_idx` (collectors.py line 962): the offset is
added to every id of the block, in place. -/
def addOffset (c : Nat) (b : TrajBlock) : TrajBlock :=
  b.map (fun l => l.map (fun a => a + c))

/-- `out_tensordicts_shared[idx]` lookup: the cache is an association
list in dictionary insertion order (the order the first-ever entry of
each worker came off the queue, collectors.py lines 946-949). -/
def lookupBlock (cache : List (Nat × TrajBlock)) (k : Nat) : TrajBlock :=
  ((cache.find? (fun p => p.1 == k)).map Prod.snd).getD []

/-- The renumbering loop of `MultiSyncDataCollector.iterator`
(collectors.py lines 959-964) after processing workers `0..k-1`:
`for idx in range(k): traj_ids = blocks[idx]; if max_traj_idx is not
None: traj_ids += max_traj_idx; max_traj_idx = traj_ids.max() + 1`.
Returns the mutated per-worker blocks and the final `max_traj_idx`. -/
def mergeRenumber (blocks : Nat → TrajBlock) : Nat → (Nat → TrajBlock) × Option Nat
  | 0 => (blocks, none)
  | k + 1 =>
    let p := mergeRenumber blocks k
    let b := p.1 k
    match p.2 with
    | none => (fun i => if i = k then b else p.1 i, some (blockMax b + 1))
    | some c =>
      let b2 := addOffset c b
      (fun i => if i = k then b2 else p.1 i, some (blockMax b2 + 1))

/-- The merged round output of `MultiSyncDataCollector.iterator`
(collectors.py lines 959-966): renumber the cached per-worker blocks in
ascending worker-index order (the `+=` mutates the cached tensors in
place), then `torch.cat` the cache values in dictionary INSERTION order
along the lane axis. -/
def syncMergeOut (numWorkers : Nat) (cache : List (Nat × TrajBlock)) : TrajBlock :=
  let renum := (mergeRenumber (fun k => lookupBlock cache k) numWorkers).1
  (cache.map (fun p => renum p.1)).flatten

/-- Modelled from the spec: the merge the specification describes, with
the renumbered per-worker blocks concatenated in ascending worker-index
order (spec section 4.4, "concatenation preserves worker-ascending
order"). Used only to compare against `syncMergeOut`. -/
def specMergeAscending (numWorkers : Nat) (cache : List (Nat × TrajBlock)) : TrajBlock :=
  let renum := (mergeRenumber (fun k => lookupBlock cache k) numWorkers).1
  ((List.range numWorkers).map renum).flatten

/-- The `max_traj_idx` value after the renumbering loop has processed
workers `0..k-1` (0 when the loop has not run). -/
def mxAfter (blocks : Nat → TrajBlock) (k : Nat) : Nat :=
  ((mergeRenumber blocks k).2).getD 0

/-- Concrete two-worker round cache in queue-arrival order: worker 1
reported first, each worker block has one lane with one frame of
trajectory id 0. -/
def c3Cache : List (Nat × TrajBlock) := [(1, [[0]]), (0, [[0]])]

/-- Comparison of a frame count against a possibly infinite cap
(`np.inf` / `float("inf")` in the source is `none`). -/
def ltCap (a : Nat) (cap : Option Nat) : Bool :=
  match cap with
  | none => true
  | some c => a < c

/-- `self.frames_per_worker = np.inf` (collectors.py line 732): the value
`_MultiDataCollector.__init__` installs for the per-worker frame share. -/
def framesPerWorkerInit : Option Nat := none

/-- Coordinator-side state of `MultiaSyncDataCollector.iterator`: the
`dones` and `workers_frames` lists, the global `self._frames` counter,
and for each worker whether a dispatched `continue` is outstanding (the
worker will deliver exactly one block per dispatch). -/
structure ASchedState where
  dones : Nat → Bool
  workersFrames : Nat → Nat
  frames : Nat
  pending : Nat → Bool

/-- State right after the initial dispatch loop of
`MultiaSyncDataCollector.iterator` (collectors.py lines 1021-1031): every
worker has been sent one `continue`/`continue_random`, all counters are
zero and nobody is done. -/
def asyncInit (numWorkers : Nat) : ASchedState :=
  { dones := fun _ => false
    workersFrames := fun _ => 0
    frames := 0
    pending := fun i => decide (i < numWorkers) }

/-- One pass of the `while` body of `MultiaSyncDataCollector.iterator`
(collectors.py lines 1032-1058) for a block of worker `idx`: add
`out.numel()` (the fixed block size of that worker) to the global and
per-worker counters, then either re-dispatch `continue` to that same
worker (`workers_frames[idx] < frames_per_worker`) or mark it done.
Returns the new state and whether a re-dispatch was sent. -/
def asyncConsume (fpw : Option Nat) (blockSize : Nat → Nat)
    (st : ASchedState) (idx : Nat) : ASchedState × Bool :=
  let wf := st.workersFrames idx + blockSize idx
  let fr := st.frames + blockSize idx
  if ltCap wf fpw then
    ({ dones := st.dones
       workersFrames := fun i => if i = idx then wf else st.workersFrames i
       frames := fr
       pending := st.pending }, true)
  else
    ({ dones := fun i => if i = idx then true else st.dones i
       workersFrames := fun i => if i = idx then wf else st.workersFrames i
       frames := fr
       pending := fun i => if i = idx then false else st.pending i }, false)

/-- The `while self._frames < self.total_frames` loop of
`MultiaSyncDataCollector.iterator` over a given queue arrival order. -/
def asyncRun (fpw : Option Nat) (blockSize : Nat → Nat)
    (totalFrames : Option Nat) : List Nat → ASchedState → ASchedState
  | [], st => st
  | idx :: rest, st =>
    if ltCap st.frames totalFrames then
      asyncRun fpw blockSize totalFrames rest (asyncConsume fpw blockSize st idx).1
    else st

/-- An arrival order is valid when, at each consumed entry, the reporting
worker actually has an outstanding dispatch (a worker produces exactly
one block per `continue` it received). -/
def validArrivals (fpw : Option Nat) (blockSize : Nat → Nat)
    (totalFrames : Option Nat) : List Nat → ASchedState → Bool
  | [], _ => true
  | idx :: rest, st =>
    if ltCap st.frames totalFrames then
      st.pending idx &&
        validArrivals fpw blockSize totalFrames rest (asyncConsume fpw blockSize st idx).1
    else true

/-- Coordinator invariant of the async dispatch loop: a worker marked
done has no outstanding dispatch; a worker with an outstanding dispatch
has either collected nothing yet or is strictly below its
`frames_per_worker` share; and no worker's counted frames exceed its
share by more than one of its own blocks. -/
def asyncInv (fpw : Option Nat) (blockSize : Nat → Nat) (st : ASchedState) : Prop :=
  ∀ i, (st.dones i = true → st.pending i = false) ∧
    (st.pending i = true →
      st.workersFrames i = 0 ∨ ltCap (st.workersFrames i) fpw = true) ∧
    (∀ cap, fpw = some cap → st.workersFrames i ≤ cap + blockSize i)

/-- Control messages of the worker protocol (`msg` strings of
`_main_async_collector`, collectors.py lines 1247-1331). -/
inductive CtrlMsg
  | continueMsg
  | continueRandom
  | seedMsg
  | resetMsg
  | updateMsg
  | stateDictMsg
  | loadStateDictMsg
  | closeMsg
deriving Repr, DecidableEq

/-- `msg in ("continue", "continue_random")`. -/
def isContinueMsg : CtrlMsg → Bool
  | CtrlMsg.continueMsg => true
  | CtrlMsg.continueRandom => true
  | _ => false

/-- Loop-carried state of `_main_async_collector`: the last received
message (`msg`, unset before the first receive), the `has_timed_out`
flag and the per-worker sequence number `j`. -/
structure WorkerState where
  prevMsg : Option CtrlMsg
  hasTimedOut : Bool
  j : Nat
deriving Repr, DecidableEq

/-- Observable outcome of one pass of the worker loop. -/
inductive WorkerEffect
  | waited
  | published (j : Nat)
  | discarded
  | queueFull
  | replied (m : CtrlMsg)
  | closedLoop
  | protocolError
deriving Repr, DecidableEq

/-- Whether an effect is one of the block-producing outcomes (the
`d = next(dc_iter)` branch ran). -/
def isProducingEffect : WorkerEffect → Bool
  | WorkerEffect.published _ => true
  | WorkerEffect.discarded => true
  | WorkerEffect.queueFull => true
  | _ => false

/-- The `continue`/`continue_random` branch of `_main_async_collector`
(collectors.py lines 1247-1284): produce a block; if a fresh control
message arrived while producing (`postPoll`), discard the block and loop;
otherwise publish to the queue (`putOk` is whether `queue_out.put`
succeeded within the timeout): success advances `j` and clears
`has_timed_out`, a `queue.Full` sets `has_timed_out`. -/
def produceBranch (st : WorkerState) (m : CtrlMsg) (postPoll putOk : Bool) :
    WorkerState × WorkerEffect :=
  if postPoll then
    ({ prevMsg := some m, hasTimedOut := st.hasTimedOut, j := st.j },
      WorkerEffect.discarded)
  else if putOk then
    ({ prevMsg := some m, hasTimedOut := false, j := st.j + 1 },
      WorkerEffect.published st.j)
  else
    ({ prevMsg := some m, hasTimedOut := true, j := st.j },
      WorkerEffect.queueFull)

/-- Dispatch on a received control message (collectors.py lines
1247-1331). The reply branches clear `has_timed_out` except `reset`,
which leaves it untouched in the source; `close` replies and leaves the
loop. -/
def handleMsg (st : WorkerState) (m : CtrlMsg) (postPoll putOk : Bool) :
    WorkerState × WorkerEffect :=
  match m with
  | CtrlMsg.continueMsg => produceBranch st m postPoll putOk
  | CtrlMsg.continueRandom => produceBranch st m postPoll putOk
  | CtrlMsg.resetMsg =>
    ({ prevMsg := some m, hasTimedOut := st.hasTimedOut, j := st.j },
      WorkerEffect.replied m)
  | CtrlMsg.closeMsg =>
    ({ prevMsg := some m, hasTimedOut := st.hasTimedOut, j := st.j },
      WorkerEffect.closedLoop)
  | _ =>
    ({ prevMsg := some m, hasTimedOut := false, j := st.j },
      WorkerEffect.replied m)

/-- One pass of the `while True` loop of `_main_async_collector`
(collectors.py lines 1230-1331). `pollIn` is the result of
`pipe_child.poll(_timeout)`: `some m` when a message was waiting, `none`
on a poll timeout. On a timeout, the source keeps waiting (`continue`)
unless `has_timed_out` is set, in which case it falls through and
re-processes the PREVIOUS message, raising a `RuntimeError` when that
message is not `continue`/`continue_random` (lines 1236-1246). -/
def workerIter (st : WorkerState) (pollIn : Option CtrlMsg) (postPoll putOk : Bool) :
    WorkerState × WorkerEffect :=
  match pollIn with
  | some m => handleMsg st m postPoll putOk
  | none =>
    if st.hasTimedOut then
      match st.prevMsg with
      | some m =>
        if isContinueMsg m then produceBranch st m postPoll putOk
        else (st, WorkerEffect.protocolError)
      | none => (st, WorkerEffect.protocolError)
    else (st, WorkerEffect.waited)

/-- The `for idx in range(self.num_workers)` loop of
`_MultiDataCollector.set_seed` (collectors.py lines 840-849) with `fuel`
workers left, the next worker index, and the current value of the `seed`
variable. `workerSeed idx s` is the seed worker `idx` replies with after
receiving `s`; the coordinator then increments the running seed by one
for every worker except the last. -/
def setSeedLoop (workerSeed : Nat → Nat → Nat) (numWorkers : Nat) :
    Nat → Nat → Nat → Nat
  | 0, _, s => s
  | fuel + 1, idx, s =>
    let ns := workerSeed idx s
    setSeedLoop workerSeed numWorkers fuel (idx + 1)
      (if idx < numWorkers - 1 then ns + 1 else ns)

/-- `_MultiDataCollector.set_seed` (collectors.py lines 820-849): seed
the workers sequentially and return the final running seed. -/
def multiSetSeed (workerSeed : Nat → Nat → Nat) (numWorkers s : Nat) : Nat :=
  setSeedLoop workerSeed numWorkers numWorkers 0 s

/-- The seed value the coordinator sends to worker `idx`: worker 0 gets
the caller seed, worker `i+1` gets worker `i`-s reply plus one. -/
def seedSentTo (workerSeed : Nat → Nat → Nat) (s : Nat) : Nat → Nat
  | 0 => s
  | idx + 1 => workerSeed idx (seedSentTo workerSeed s idx) + 1

/-- Constructor flags of `SyncDataCollector` relevant to the eager
configuration check. -/
structure SyncCollectorFlags where
  resetAtEachIter : Bool
  splitTrajs : Bool
  returnInPlace : Bool
deriving Repr, DecidableEq

/-- The flag validation of `SyncDataCollector.__init__` (collectors.py
lines 312-319): the only eager flag-combination error raises when
`return_in_place` and `split_trajs` are both set. -/
def validateFlags (c : SyncCollectorFlags) : Except String Unit :=
  if c.returnInPlace && c.splitTrajs then
    Except.error "return_in_place and split_trajs are incompatible"
  else Except.ok ()

/-- Whether an `Except` value is an error. -/
def exceptIsError (e : Except String Unit) : Bool :=
  match e with
  | Except.error _ => true
  | Except.ok _ => false

/-- `total_frames` normalisation of the collector constructors
(collectors.py lines 284-286 and 716): a value that is not strictly
positive becomes `float("inf")`, modelled as `none`. -/
def normalizeTotalFrames (t : Int) : Option Nat :=
  if t > 0 then some t.toNat else none

/-- The stop test of the iterators (`self._frames >= total_frames`,
collectors.py lines 358 and 376, and the negation of the `while` guard
at line 1032). -/
def iterStopCond (frames : Nat) (totalFrames : Option Nat) : Bool :=
  !ltCap frames totalFrames

/-- Concrete two-lane bookkeeping state used by witnesses: lane 0 has
reached step count 5 of its first trajectory, lane 1 is done at step 2 of
trajectory 1; only lane 0 is recorded in `has_been_done`. -/
def c45State : BookState :=
  { s :=
      { n := 2
        lane := fun i =>
          if i = 0 then { trajId := 0, stepCount := 5, done := false, obs := 0 }
          else { trajId := 1, stepCount := 2, done := true, obs := 0 } }
    hbd := some (fun i => decide (i = 0)) }

/-- Engine configuration of the C1 scenario: one frame per block, no
trajectory length cap, no per-call reset, no lag. -/
def cfgC1 : EngineCfg :=
  { framesPerBatch := 1, maxFramesPerTraj := -1, resetAtEachIter := false
    initWithLag := false }

/-- Environment oracle of the C1 scenario: the single lane reports `done`
at every step. -/
def oC1 : EnvOracle :=
  { stepDone := fun _ _ => true, stepObs := fun _ _ => 0
    lagDraw := fun _ _ => false, resetObs := fun _ _ => 0
    initResetObs := fun _ => 0 }

/-- Initial engine state of the C1 scenario: one fresh lane. -/
def bC1 : BookState :=
  { s := { n := 1, lane := fun _ => zeroLane }, hbd := none }

lemma init_le_foldl_max (l : List Nat) (b : Nat) : b ≤ l.foldl Nat.max b := by
  induction l generalizing b with
  | nil => exact Nat.le_refl b
  | cons x xs ih =>
    calc b ≤ Nat.max b x := Nat.le_max_left b x
    _ ≤ (xs).foldl Nat.max (Nat.max b x) := ih (Nat.max b x)

lemma le_foldl_max_of_mem {l : List Nat} {a : Nat} (b : Nat) (h : a ∈ l) :
    a ≤ l.foldl Nat.max b := by
  induction l generalizing b with
  | nil => cases h
  | cons x xs ih =>
    rcases List.mem_cons.mp h with h1 | h1
    · subst h1
      calc a ≤ Nat.max b a := Nat.le_max_right b a
      _ ≤ xs.foldl Nat.max (Nat.max b a) := init_le_foldl_max xs (Nat.max b a)
    · rw [List.foldl_cons]
      exact ih (Nat.max b x) h1

lemma trajId_le_maxTrajId (s : RState) {i : Nat} (hi : i < s.n) :
    (s.lane i).trajId ≤ maxTrajId s := by
  apply le_foldl_max_of_mem
  exact List.mem_map.mpr ⟨i, List.mem_range.mpr hi, rfl⟩

lemma countP_range_mono (m : Nat → Bool) {a b : Nat} (h : a ≤ b) :
    (List.range a).countP m ≤ (List.range b).countP m := by
  induction b with
  | zero =>
    have : a = 0 := Nat.le_zero.mp h
    subst this
    exact Nat.le_refl _
  | succ b ih =>
    rcases Nat.lt_or_ge a (b + 1) with h1 | h1
    · have h2 : a ≤ b := Nat.lt_succ_iff.mp h1
      calc (List.range a).countP m ≤ (List.range b).countP m := ih h2
      _ ≤ (List.range (b + 1)).countP m := by
          rw [List.range_succ, List.countP_append]
          exact Nat.le_add_right _ _
    · have : a = b + 1 := Nat.le_antisymm h h1
      subst this
      exact Nat.le_refl _

lemma countP_range_strict (m : Nat → Bool) {j k : Nat} (hjk : j < k)
    (hm : m j = true) : (List.range j).countP m < (List.range k).countP m := by
  have h1 : (List.range (j + 1)).countP m = (List.range j).countP m + 1 := by
    rw [List.range_succ, List.countP_append]
    simp [List.countP_cons, hm]
  have h2 : (List.range (j + 1)).countP m ≤ (List.range k).countP m :=
    countP_range_mono m hjk
  omega

/-- C4: in `_reset_if_necessary`, a lane is flagged terminal iff its
`done` is set or (`max_frames_per_traj > 0` and
`step_count == max_frames_per_traj`) — the source compares
`steps == max_frames_per_traj` without a positivity guard, but at every
call site `step_count` was just incremented, so `step_count >= 1` and the
two conditions agree; terminal-ness is sticky via `has_been_done` (a lane
once flagged stays flagged in the stored mask); and a lane flagged in
`has_been_done` can appear in the effective reset mask only through the
genuine terminal condition, never through the `init_with_lag` bernoulli
draw (drawn at rate `1/max_frames_per_traj` in the source). -/
theorem C4_terminal_and_lag_mask
    (mfpt : Int) (lag : Bool) (draw : Nat → Bool) (freshObs : Nat → Int)
    (b : BookState) (i : Nat) (h : Nat → Bool)
    (hstep : 1 ≤ (b.s.lane i).stepCount)
    (hhbd : b.hbd = some h) :
    (doneOrTerminatedMask mfpt b.s i = true ↔
      ((b.s.lane i).done = true ∨
        (0 < mfpt ∧ ((b.s.lane i).stepCount : Int) = mfpt))) ∧
    (h i = true →
      ∃ h2, (resetIfNecessary mfpt lag draw freshObs b).hbd = some h2 ∧
        h2 i = true) ∧
    (∀ dOT hbd2 : Nat → Bool, hbd2 i = true →
      effectiveResetMask lag draw b.s.n dOT hbd2 i = dOT i) := by
  refine ⟨?_, ?_, ?_⟩
  · unfold doneOrTerminatedMask
    simp only [Bool.or_eq_true, beq_iff_eq]
    constructor
    · rintro (hd | he)
      · exact Or.inl hd
      · exact Or.inr ⟨by omega, he⟩
    · rintro (hd | ⟨_, he⟩)
      · exact Or.inl hd
      · exact Or.inr he
  · intro hi
    refine ⟨updateHasBeenDone b.hbd (doneOrTerminatedMask mfpt b.s), ?_, ?_⟩
    · unfold resetIfNecessary
      dsimp only
      split
      · rfl
      · rfl
    · rw [hhbd]
      unfold updateHasBeenDone
      simp [hi]
  · intro dOT hbd2 hi2
    unfold effectiveResetMask
    split
    · simp [hi2]
    · rfl

/-- Witness for C4 at a concrete input: the terminal test of lane 0 of
`c45State` with `max_frames_per_traj = 5`. -/
theorem C4_terminal_and_lag_mask_witness :
    doneOrTerminatedMask 5 c45State.s 0 = true ↔
      ((c45State.s.lane 0).done = true ∨
        (0 < (5 : Int) ∧ ((c45State.s.lane 0).stepCount : Int) = 5)) :=
  (C4_terminal_and_lag_mask 5 true (fun _ => true) (fun _ => 0) c45State 0
    (fun i => decide (i = 0)) (by decide) rfl).1

/-- C5: when at least one lane is flagged by the effective reset mask,
`_reset_if_necessary` rewrites the state through `resetLanes`: every
flagged lane is zeroed, reset in the environment (fresh observation,
`done` cleared), its `step_count` set to 0 and its `traj_id` set to
`(current max traj_id) + 1 + (its rank among the flagged lanes in
ascending lane order)`; unflagged lanes are untouched; and pairwise
distinctness of the per-lane trajectory ids is preserved. -/
theorem C5_reset_bump
    (mfpt : Int) (lag : Bool) (draw : Nat → Bool) (freshObs : Nat → Int)
    (b : BookState) (m : Nat → Bool)
    (hm : m = effectiveResetMask lag draw b.s.n (doneOrTerminatedMask mfpt b.s)
      (updateHasBeenDone b.hbd (doneOrTerminatedMask mfpt b.s)))
    (hany : anyMask b.s.n m = true) :
    (resetIfNecessary mfpt lag draw freshObs b).s = resetLanes b.s m freshObs ∧
    (∀ i, i < b.s.n → m i = true →
      (resetLanes b.s m freshObs).lane i =
        { trajId := maxTrajId b.s + 1 + (List.range i).countP m
          stepCount := 0
          done := false
          obs := freshObs i }) ∧
    (∀ i, i < b.s.n → m i = false →
      (resetLanes b.s m freshObs).lane i = b.s.lane i) ∧
    ((∀ j k, j < b.s.n → k < b.s.n → j ≠ k →
        (b.s.lane j).trajId ≠ (b.s.lane k).trajId) →
      ∀ j k, j < b.s.n → k < b.s.n → j ≠ k →
        ((resetLanes b.s m freshObs).lane j).trajId ≠
          ((resetLanes b.s m freshObs).lane k).trajId) := by
  subst hm
  set dOT := doneOrTerminatedMask mfpt b.s with hdOT
  set hbd2 := updateHasBeenDone b.hbd dOT with hhbd2
  set m := effectiveResetMask lag draw b.s.n dOT hbd2 with hm2
  have hstep : (resetIfNecessary mfpt lag draw freshObs b).s =
      resetLanes b.s m freshObs := by
    unfold resetIfNecessary
    dsimp only
    rw [← hdOT, ← hhbd2, ← hm2, if_pos hany]
  have hset : ∀ i, i < b.s.n → m i = true →
      (resetLanes b.s m freshObs).lane i =
        { trajId := maxTrajId b.s + 1 + (List.range i).countP m
          stepCount := 0
          done := false
          obs := freshObs i } := by
    intro i _ hmi
    simp [resetLanes, envResetUpdate, maskedZero, zeroLane, hmi]
  have hkeep : ∀ i, i < b.s.n → m i = false →
      (resetLanes b.s m freshObs).lane i = b.s.lane i := by
    intro i _ hmi
    simp [resetLanes, envResetUpdate, maskedZero, hmi]
  refine ⟨hstep, hset, hkeep, ?_⟩
  intro hdist j k hj hk hjk
  have hmix : ∀ p q, p < b.s.n → q < b.s.n → m p = true → m q = false →
      ((resetLanes b.s m freshObs).lane p).trajId ≠
        ((resetLanes b.s m freshObs).lane q).trajId := by
    intro p q hp hq hmp hmq
    rw [hset p hp hmp, hkeep q hq hmq]
    have h1 : (b.s.lane q).trajId ≤ maxTrajId b.s := trajId_le_maxTrajId b.s hq
    simp only []
    omega
  cases hmj : m j with
  | true =>
    cases hmk : m k with
    | true =>
      rw [hset j hj hmj, hset k hk hmk]
      simp only []
      rcases Nat.lt_or_ge j k with hlt | hge
      · have := countP_range_strict m hlt hmj
        omega
      · have hlt2 : k < j := Nat.lt_of_le_of_ne hge (Ne.symm hjk)
        have := countP_range_strict m hlt2 hmk
        omega
    | false => exact hmix j k hj hk hmj hmk
  | false =>
    cases hmk : m k with
    | true => exact fun he => hmix k j hk hj hmk hmj (Eq.symm he)
    | false =>
      rw [hkeep j hj hmj, hkeep k hk hmk]
      exact hdist j k hj hk hjk

/-- Witness for C5 at a concrete input: in `c45State` with
`max_frames_per_traj = 5` and lag disabled, both lanes are terminal (lane
0 by step count, lane 1 by `done`), and lane 1 — rank 1 of the reset set —
receives trajectory id `max + 1 + 1 = 3`. -/
theorem C5_reset_bump_witness :
    (resetLanes c45State.s (doneOrTerminatedMask 5 c45State.s) (fun _ => 0)).lane 1 =
      { trajId := maxTrajId c45State.s + 1 +
          (List.range 1).countP (doneOrTerminatedMask 5 c45State.s)
        stepCount := 0
        done := false
        obs := 0 } :=
  (C5_reset_bump 5 false (fun _ => false) (fun _ => 0) c45State
    (doneOrTerminatedMask 5 c45State.s)
    (by simp [effectiveResetMask]) (by decide)).2.1 1 (by decide) (by decide)

lemma rolloutLoop_length (cfg : EngineCfg) (o : EnvOracle) :
    ∀ k t b, ((rolloutLoop cfg o k t b).1).length = k := by
  intro k
  induction k with
  | zero => intro t b; rfl
  | succ k ih =>
    intro t b
    show ((rolloutIter cfg o t b).1 ::
      (rolloutLoop cfg o k (t + 1) (rolloutIter cfg o t b).2).1).length = k + 1
    rw [List.length_cons, ih]

lemma bookStepFrom_shift (cfg : EngineCfg) (o : EnvOracle) (b : BookState)
    (t : Nat) : ∀ m, bookStepFrom cfg o b t (m + 1) =
      bookStepFrom cfg o (rolloutIter cfg o t b).2 (t + 1) m := by
  intro m
  induction m with
  | zero => rfl
  | succ m ih =>
    show (rolloutIter cfg o (t + (m + 1)) (bookStepFrom cfg o b t (m + 1))).2 =
      (rolloutIter cfg o ((t + 1) + m)
        (bookStepFrom cfg o (rolloutIter cfg o t b).2 (t + 1) m)).2
    rw [ih]
    have harith : t + (m + 1) = (t + 1) + m := by omega
    rw [harith]

lemma rolloutLoop_getD (cfg : EngineCfg) (o : EnvOracle) :
    ∀ k t b m, m < k → (rolloutLoop cfg o k t b).1.getD m dummyRState =
      envStepIncr o (t + m) (bookStepFrom cfg o b t m).s := by
  intro k
  induction k with
  | zero => intro t b m hm; omega
  | succ k ih =>
    intro t b m hm
    show ((rolloutIter cfg o t b).1 ::
      (rolloutLoop cfg o k (t + 1) (rolloutIter cfg o t b).2).1).getD m dummyRState = _
    cases m with
    | zero => rfl
    | succ m =>
      rw [List.getD_cons_succ, ih (t + 1) (rolloutIter cfg o t b).2 m (by omega),
        bookStepFrom_shift]
      have harith : (t + 1) + m = t + (m + 1) := by omega
      rw [harith]

/-- C6: the block returned by `rollout` holds exactly
`self.frames_per_batch` consecutive frames per lane, and the frame at
time `t` is the snapshot taken right after the environment step and the
`step_count` increment of iteration `t`, BEFORE `_reset_if_necessary`
runs: each frame carries the `done` flag exactly as the environment
emitted it (so a terminal frame appears with `done = true`), with the
`step_count` of the pre-step state incremented by one and the `traj_id`
that held at capture time. -/
theorem C6_block_capture (cfg : EngineCfg) (o : EnvOracle) (b : BookState) :
    (rollout cfg o b).1.length = cfg.framesPerBatch ∧
    (∀ t, t < cfg.framesPerBatch →
      (rollout cfg o b).1.getD t dummyRState =
        envStepIncr o t (bookAt cfg o (startLanes cfg o b) t).s) ∧
    (∀ t, t < cfg.framesPerBatch → ∀ i,
      (((rollout cfg o b).1.getD t dummyRState).lane i).done = o.stepDone t i ∧
      (((rollout cfg o b).1.getD t dummyRState).lane i).stepCount =
        ((bookAt cfg o (startLanes cfg o b) t).s.lane i).stepCount + 1 ∧
      (((rollout cfg o b).1.getD t dummyRState).lane i).trajId =
        ((bookAt cfg o (startLanes cfg o b) t).s.lane i).trajId) := by
  have hidx : ∀ t, t < cfg.framesPerBatch →
      (rollout cfg o b).1.getD t dummyRState =
        envStepIncr o t (bookAt cfg o (startLanes cfg o b) t).s := by
    intro t ht
    unfold rollout bookAt
    rw [rolloutLoop_getD cfg o cfg.framesPerBatch 0 (startLanes cfg o b) t ht,
      Nat.zero_add]
  refine ⟨?_, hidx, ?_⟩
  · unfold rollout
    exact rolloutLoop_length cfg o cfg.framesPerBatch 0 (startLanes cfg o b)
  · intro t ht i
    rw [hidx t ht]
    exact ⟨rfl, rfl, rfl⟩

/-- Witness for C6 at the concrete C1 scenario: the single frame of the
first call carries the `done` flag the environment emitted. -/
theorem C6_block_capture_witness :
    (((rollout cfgC1 oC1 bC1).1.getD 0 dummyRState).lane 0).done =
      oC1.stepDone 0 0 :=
  (((C6_block_capture cfgC1 oC1 bC1).2.2) 0 (by decide) 0).1

/-- C1 (code bug): `rollout` re-assigns `traj_ids = torch.arange(n)` at
the start of EVERY call (collectors.py line 455, unguarded), so
trajectory ids restart from the lane index each call and are reused
across resets. In the one-lane scenario `cfgC1`/`oC1`/`bC1`, the first
call emits a frame with `traj_id = 0`, its end-of-trajectory reset bumps
the lane to `traj_id = 1`, yet the first frame of the second call carries
`traj_id = 0` again — the id is reused for a different trajectory,
contradicting the claim that the `0..n_lanes-1` assignment happens only
on the very first invocation and that ids are never reused. -/
theorem C1_trajId_reuse :
    (((rollout cfgC1 oC1 bC1).1.getD 0 dummyRState).lane 0).trajId = 0 ∧
    ((rollout cfgC1 oC1 bC1).2.s.lane 0).trajId = 1 ∧
    (((rollout cfgC1 oC1 (rollout cfgC1 oC1 bC1).2).1.getD 0
        dummyRState).lane 0).trajId = 0 := by
  refine ⟨rfl, rfl, rfl⟩

lemma mergeRenumber_succ (blocks : Nat → TrajBlock) (k : Nat) :
    mergeRenumber blocks (k + 1) =
      (match (mergeRenumber blocks k).2 with
        | none =>
          (fun i => if i = k then (mergeRenumber blocks k).1 k
            else (mergeRenumber blocks k).1 i,
            some (blockMax ((mergeRenumber blocks k).1 k) + 1))
        | some c =>
          (fun i => if i = k then addOffset c ((mergeRenumber blocks k).1 k)
            else (mergeRenumber blocks k).1 i,
            some (blockMax (addOffset c ((mergeRenumber blocks k).1 k)) + 1))) := by
  rfl

lemma mergeRenumber_stable_ge (blocks : Nat → TrajBlock) :
    ∀ N i, N ≤ i → (mergeRenumber blocks N).1 i = blocks i := by
  intro N
  induction N with
  | zero => intro i _; rfl
  | succ N ih =>
    intro i hi
    have hne : ¬(i = N) := by omega
    rw [mergeRenumber_succ]
    cases h : (mergeRenumber blocks N).2 with
    | none => simp only [if_neg hne]; exact ih i (by omega)
    | some c => simp only [if_neg hne]; exact ih i (by omega)

lemma mergeRenumber_stable_step (blocks : Nat → TrajBlock) {N i : Nat}
    (hne : i ≠ N) :
    (mergeRenumber blocks (N + 1)).1 i = (mergeRenumber blocks N).1 i := by
  rw [mergeRenumber_succ]
  cases h : (mergeRenumber blocks N).2 with
  | none => simp only [if_neg hne]
  | some c => simp only [if_neg hne]

lemma mergeRenumber_stable_lt (blocks : Nat → TrajBlock) :
    ∀ N i, i < N → (mergeRenumber blocks N).1 i =
      (mergeRenumber blocks (i + 1)).1 i := by
  intro N
  induction N with
  | zero => intro i hi; omega
  | succ N ih =>
    intro i hi
    rcases Nat.lt_or_ge i N with hlt | hge
    · rw [mergeRenumber_stable_step blocks (by omega)]
      exact ih i hlt
    · have : i = N := by omega
      subst this
      rfl

lemma mergeRenumber_step_block (blocks : Nat → TrajBlock) (k : Nat) :
    (mergeRenumber blocks (k + 1)).1 k =
      (match (mergeRenumber blocks k).2 with
        | none => blocks k
        | some c => addOffset c (blocks k)) := by
  have hk : (mergeRenumber blocks k).1 k = blocks k :=
    mergeRenumber_stable_ge blocks k k (Nat.le_refl k)
  rw [mergeRenumber_succ]
  cases h : (mergeRenumber blocks k).2 with
  | none => simp [hk]
  | some c => simp [hk]

lemma mergeRenumber_mx_eq (blocks : Nat → TrajBlock) (k : Nat) :
    (mergeRenumber blocks (k + 1)).2 =
      some (blockMax ((mergeRenumber blocks (k + 1)).1 k) + 1) := by
  rw [mergeRenumber_succ]
  cases h : (mergeRenumber blocks k).2 with
  | none => simp
  | some c => simp

lemma elem_le_blockMax {b : TrajBlock} {a : Nat} (h : a ∈ b.flatten) :
    a ≤ blockMax b := by
  rcases List.mem_flatten.mp h with ⟨l, hl, hal⟩
  have h1 : a ≤ laneMax l := le_foldl_max_of_mem 0 hal
  have h2 : laneMax l ≤ blockMax b :=
    le_foldl_max_of_mem 0 (List.mem_map.mpr ⟨l, hl, rfl⟩)
  omega

lemma flatten_addOffset (c : Nat) (b : TrajBlock) :
    (addOffset c b).flatten = b.flatten.map (fun a => a + c) := by
  unfold addOffset
  exact (List.map_flatten (fun a => a + c) b).symm

lemma elem_addOffset_ge {c : Nat} {b : TrajBlock} {a : Nat}
    (h : a ∈ (addOffset c b).flatten) : c ≤ a := by
  rw [flatten_addOffset] at h
  rcases List.mem_map.mp h with ⟨e, _, he⟩
  omega

lemma blockMax_addOffset_ge {c : Nat} {b : TrajBlock}
    (hne : b.flatten ≠ []) : c ≤ blockMax (addOffset c b) := by
  rcases List.exists_mem_of_ne_nil b.flatten hne with ⟨a, ha⟩
  have h1 : a + c ∈ (addOffset c b).flatten := by
    rw [flatten_addOffset]
    exact List.mem_map.mpr ⟨a, ha, rfl⟩
  have h2 := elem_le_blockMax h1
  omega

lemma mergeRenumber_length (blocks : Nat → TrajBlock) :
    ∀ N i, ((mergeRenumber blocks N).1 i).length = (blocks i).length := by
  intro N
  induction N with
  | zero => intro i; rfl
  | succ N ih =>
    intro i
    by_cases hi : i = N
    · subst hi
      rw [mergeRenumber_step_block]
      cases h : (mergeRenumber blocks i).2 with
      | none => rfl
      | some c => simp [addOffset]
    · rw [mergeRenumber_stable_step blocks hi]
      exact ih i

lemma mxAfter_step_le (blocks : Nat → TrajBlock) (k : Nat)
    (hk : (blocks k).flatten ≠ []) : mxAfter blocks k ≤ mxAfter blocks (k + 1) := by
  cases k with
  | zero => exact Nat.zero_le _
  | succ m =>
    have hmx := mergeRenumber_mx_eq blocks m
    have h1 : mxAfter blocks (m + 1) =
        blockMax ((mergeRenumber blocks (m + 1)).1 m) + 1 := by
      unfold mxAfter
      rw [hmx]
      rfl
    have hstep : (mergeRenumber blocks (m + 1 + 1)).1 (m + 1) =
        addOffset (blockMax ((mergeRenumber blocks (m + 1)).1 m) + 1)
          (blocks (m + 1)) := by
      rw [mergeRenumber_step_block blocks (m + 1), hmx]
    have h2 : mxAfter blocks (m + 1 + 1) =
        blockMax ((mergeRenumber blocks (m + 1 + 1)).1 (m + 1)) + 1 := by
      unfold mxAfter
      rw [mergeRenumber_mx_eq blocks (m + 1)]
      rfl
    have h3 := blockMax_addOffset_ge
      (c := blockMax ((mergeRenumber blocks (m + 1)).1 m) + 1) hk
    rw [h1, h2, hstep]
    omega

lemma mxAfter_chain (blocks : Nat → TrajBlock) {N : Nat}
    (hne : ∀ m, m < N → (blocks m).flatten ≠ []) :
    ∀ j k, j ≤ k → k ≤ N → mxAfter blocks j ≤ mxAfter blocks k := by
  intro j k
  induction k with
  | zero =>
    intro hjk _
    have : j = 0 := by omega
    subst this
    exact Nat.le_refl _
  | succ k ih =>
    intro hjk hkN
    rcases Nat.lt_or_ge j (k + 1) with hlt | hge
    · have h1 : mxAfter blocks j ≤ mxAfter blocks k := ih (by omega) (by omega)
      have h2 : mxAfter blocks k ≤ mxAfter blocks (k + 1) :=
        mxAfter_step_le blocks k (hne k (by omega))
      omega
    · have : j = k + 1 := by omega
      subst this
      exact Nat.le_refl _

lemma mergeRenumber_upper (blocks : Nat → TrajBlock) {N j : Nat} (hj : j < N)
    {a : Nat} (ha : a ∈ ((mergeRenumber blocks N).1 j).flatten) :
    a < mxAfter blocks (j + 1) := by
  rw [mergeRenumber_stable_lt blocks N j hj] at ha
  have h1 : mxAfter blocks (j + 1) =
      blockMax ((mergeRenumber blocks (j + 1)).1 j) + 1 := by
    unfold mxAfter
    rw [mergeRenumber_mx_eq]
    rfl
  have h2 := elem_le_blockMax ha
  omega

lemma mergeRenumber_lower (blocks : Nat → TrajBlock) {N k : Nat}
    (hk1 : 1 ≤ k) (hkN : k < N) {a : Nat}
    (ha : a ∈ ((mergeRenumber blocks N).1 k).flatten) :
    mxAfter blocks k ≤ a := by
  rw [mergeRenumber_stable_lt blocks N k hkN] at ha
  cases k with
  | zero => omega
  | succ m =>
    have hmx := mergeRenumber_mx_eq blocks m
    have hstep : (mergeRenumber blocks (m + 1 + 1)).1 (m + 1) =
        addOffset (blockMax ((mergeRenumber blocks (m + 1)).1 m) + 1)
          (blocks (m + 1)) := by
      rw [mergeRenumber_step_block blocks (m + 1), hmx]
    rw [hstep] at ha
    have h1 : mxAfter blocks (m + 1) =
        blockMax ((mergeRenumber blocks (m + 1)).1 m) + 1 := by
      unfold mxAfter
      rw [hmx]
      rfl
    have h2 := elem_addOffset_ge ha
    omega

/-- C3 counterexample: with two workers whose first blocks arrived in
queue order worker 1 then worker 0, the round output of
`MultiSyncDataCollector.iterator` concatenates the cached blocks in
dictionary INSERTION order, not in ascending worker-index order: the
merged block is `[[1], [0]]` while the ascending-order merge the claim
describes is `[[0], [1]]`. -/
theorem C3_merge_insertion_order_counterexample :
    syncMergeOut 2 c3Cache ≠ specMergeAscending 2 c3Cache := by
  decide

/-- C3 amended: the merged round output concatenates the renumbered
per-worker blocks in the insertion order of the per-worker cache (the
order each worker's first block came off the queue), not necessarily in
ascending worker-index order; its lane count equals the sum of the
per-worker lane counts; and the worker-index-ordered renumbering makes
trajectory ids globally unique across workers — every id of a
lower-indexed worker is strictly below every id of a higher-indexed
worker after renumbering (provided every worker block is nonempty, as in
the source where `.max()` requires it). -/
theorem C3_merge_amended (numWorkers : Nat) (cache : List (Nat × TrajBlock)) :
    (syncMergeOut numWorkers cache).length =
      (cache.map (fun p => (lookupBlock cache p.1).length)).sum ∧
    ((∀ m, m < numWorkers → (lookupBlock cache m).flatten ≠ []) →
      ∀ j k, j < k → k < numWorkers →
        ∀ a ∈ ((mergeRenumber (fun i => lookupBlock cache i) numWorkers).1 j).flatten,
          ∀ c ∈ ((mergeRenumber (fun i => lookupBlock cache i) numWorkers).1 k).flatten,
            a < c) := by
  constructor
  · unfold syncMergeOut
    rw [List.length_flatten, List.map_map]
    congr 1
    exact List.map_congr_left (fun p _ =>
      mergeRenumber_length (fun i => lookupBlock cache i) numWorkers p.1)
  · intro hne j k hjk hkN a ha c hc
    have h1 : a < mxAfter (fun i => lookupBlock cache i) (j + 1) :=
      mergeRenumber_upper (fun i => lookupBlock cache i) (by omega) ha
    have h2 : mxAfter (fun i => lookupBlock cache i) (j + 1) ≤
        mxAfter (fun i => lookupBlock cache i) k :=
      mxAfter_chain (fun i => lookupBlock cache i) hne (j + 1) k (by omega) (by omega)
    have h3 : mxAfter (fun i => lookupBlock cache i) k ≤ c :=
      mergeRenumber_lower (fun i => lookupBlock cache i) (by omega) hkN hc
    omega

/-- Witness for C3 amended on the concrete cache `c3Cache`: worker 0
keeps id 0, worker 1 is renumbered to id 1, and the cross-worker
ordering holds. -/
theorem C3_merge_amended_witness :
    0 ∈ ((mergeRenumber (fun i => lookupBlock c3Cache i) 2).1 0).flatten ∧
    1 ∈ ((mergeRenumber (fun i => lookupBlock c3Cache i) 2).1 1).flatten ∧
    0 < 1 := by
  refine ⟨by decide, by decide, ?_⟩
  exact (C3_merge_amended 2 c3Cache).2
    (by
      intro m hm
      match m, hm with
      | 0, _ => decide
      | 1, _ => decide)
    0 1 (by decide) (by decide) 0 (by decide) 1 (by decide)

lemma asyncConsume_eq_true (fpw : Option Nat) (bs : Nat → Nat)
    (st : ASchedState) (idx : Nat)
    (h : ltCap (st.workersFrames idx + bs idx) fpw = true) :
    asyncConsume fpw bs st idx =
      ({ dones := st.dones
         workersFrames := fun i => if i = idx then st.workersFrames idx + bs idx
           else st.workersFrames i
         frames := st.frames + bs idx
         pending := st.pending }, true) := by
  simp only [asyncConsume]
  rw [if_pos h]

lemma asyncConsume_eq_false (fpw : Option Nat) (bs : Nat → Nat)
    (st : ASchedState) (idx : Nat)
    (h : ltCap (st.workersFrames idx + bs idx) fpw = false) :
    asyncConsume fpw bs st idx =
      ({ dones := fun i => if i = idx then true else st.dones i
         workersFrames := fun i => if i = idx then st.workersFrames idx + bs idx
           else st.workersFrames i
         frames := st.frames + bs idx
         pending := fun i => if i = idx then false else st.pending i }, false) := by
  simp only [asyncConsume]
  rw [if_neg (by simp [h])]

lemma asyncConsume_preserves (fpw : Option Nat) (bs : Nat → Nat)
    (st : ASchedState) (idx : Nat) (hInv : asyncInv fpw bs st)
    (hp : st.pending idx = true) :
    asyncInv fpw bs (asyncConsume fpw bs st idx).1 := by
  intro i
  cases hc : ltCap (st.workersFrames idx + bs idx) fpw with
  | true =>
    rw [asyncConsume_eq_true fpw bs st idx hc]
    refine ⟨fun hd => (hInv i).1 hd, ?_, ?_⟩
    · intro hpi
      by_cases hi : i = idx
      · subst hi
        simp [hc]
      · simp only [if_neg hi]
        exact (hInv i).2.1 hpi
    · intro cap hcap
      by_cases hi : i = idx
      · subst hi
        rw [hcap] at hc
        have hlt : st.workersFrames i + bs i < cap := by
          simpa [ltCap] using hc
        simp only [if_pos rfl, eq_self_iff_true, if_true]
        omega
      · simp only [if_neg hi]
        exact (hInv i).2.2 cap hcap
  | false =>
    rw [asyncConsume_eq_false fpw bs st idx hc]
    refine ⟨?_, ?_, ?_⟩
    · intro hd
      by_cases hi : i = idx
      · subst hi
        simp
      · simp only [if_neg hi] at hd ⊢
        exact (hInv i).1 hd
    · intro hpi
      by_cases hi : i = idx
      · subst hi
        simp at hpi
      · simp only [if_neg hi] at hpi ⊢
        exact (hInv i).2.1 hpi
    · intro cap hcap
      by_cases hi : i = idx
      · subst hi
        simp only [if_pos rfl, eq_self_iff_true, if_true]
        rcases (hInv i).2.1 hp with h0 | hlt
        · omega
        · rw [hcap] at hlt
          have : st.workersFrames i < cap := by simpa [ltCap] using hlt
          omega
      · simp only [if_neg hi]
        exact (hInv i).2.2 cap hcap

lemma asyncRun_preserves (fpw : Option Nat) (bs : Nat → Nat)
    (tf : Option Nat) :
    ∀ (trace : List Nat) (st : ASchedState), asyncInv fpw bs st →
      validArrivals fpw bs tf trace st = true →
      asyncInv fpw bs (asyncRun fpw bs tf trace st) := by
  intro trace
  induction trace with
  | nil => intro st hInv _; exact hInv
  | cons idx rest ih =>
    intro st hInv hvalid
    unfold asyncRun
    unfold validArrivals at hvalid
    cases hg : ltCap st.frames tf with
    | true =>
      simp only [eq_self_iff_true, if_true]
      rw [if_pos hg, Bool.and_eq_true] at hvalid
      exact ih (asyncConsume fpw bs st idx).1
        (asyncConsume_preserves fpw bs st idx hInv hvalid.1) hvalid.2
    | false =>
      simp only [Bool.false_eq_true, if_false]
      exact hInv

/-- C2: in `MultiaSyncDataCollector.iterator`, after consuming a block
from worker `idx` the coordinator re-dispatches `continue` /
`continue_random` to that same worker exactly when the worker's updated
cumulative frame count is still below `frames_per_worker`; when the
share is reached the worker is marked done and its outstanding dispatch
is cleared; a worker with no outstanding dispatch is never re-armed by
consuming another block; and over any valid arrival order started from
the initial dispatch, a done worker has no outstanding dispatch (it is
never re-dispatched) and no worker's individually counted frames exceed
its share by more than one of its own blocks. -/
theorem C2_async_redispatch (fpw : Option Nat) (bs : Nat → Nat)
    (tf : Option Nat) (numWorkers : Nat) (trace : List Nat)
    (hvalid : validArrivals fpw bs tf trace (asyncInit numWorkers) = true) :
    (∀ st idx, ((asyncConsume fpw bs st idx).2 =
        ltCap (st.workersFrames idx + bs idx) fpw) ∧
      (ltCap (st.workersFrames idx + bs idx) fpw = false →
        (asyncConsume fpw bs st idx).1.dones idx = true ∧
        (asyncConsume fpw bs st idx).1.pending idx = false)) ∧
    (∀ st idx i, st.pending i = false →
      (asyncConsume fpw bs st idx).1.pending i = false) ∧
    (∀ i, ((asyncRun fpw bs tf trace (asyncInit numWorkers)).dones i = true →
        (asyncRun fpw bs tf trace (asyncInit numWorkers)).pending i = false) ∧
      (∀ cap, fpw = some cap →
        (asyncRun fpw bs tf trace (asyncInit numWorkers)).workersFrames i ≤
          cap + bs i)) := by
  have hInit : asyncInv fpw bs (asyncInit numWorkers) := by
    intro i
    refine ⟨?_, ?_, ?_⟩
    · intro hd
      simp [asyncInit] at hd
    · intro _
      exact Or.inl rfl
    · intro cap _
      simp [asyncInit]
  have hFinal := asyncRun_preserves fpw bs tf trace (asyncInit numWorkers)
    hInit hvalid
  refine ⟨?_, ?_, fun i => ⟨(hFinal i).1, (hFinal i).2.2⟩⟩
  · intro st idx
    constructor
    · cases hc : ltCap (st.workersFrames idx + bs idx) fpw with
      | true => rw [asyncConsume_eq_true fpw bs st idx hc]
      | false => rw [asyncConsume_eq_false fpw bs st idx hc]
    · intro hcf
      rw [asyncConsume_eq_false fpw bs st idx hcf]
      simp
  · intro st idx i hpi
    cases hc : ltCap (st.workersFrames idx + bs idx) fpw with
    | true =>
      rw [asyncConsume_eq_true fpw bs st idx hc]
      exact hpi
    | false =>
      rw [asyncConsume_eq_false fpw bs st idx hc]
      by_cases hi : i = idx
      · subst hi
        simp
      · simp only [if_neg hi]
        exact hpi

/-- Witness for C2: two workers, block size 4, share 6, target 100,
arrival order worker 0, worker 0, worker 1 — worker 0 ends done with 8
counted frames, at most one block over its share. -/
theorem C2_async_redispatch_witness :
    (asyncRun (some 6) (fun _ => 4) (some 100) [0, 0, 1]
      (asyncInit 2)).dones 0 = true ∧
    (asyncRun (some 6) (fun _ => 4) (some 100) [0, 0, 1]
      (asyncInit 2)).pending 0 = false ∧
    (asyncRun (some 6) (fun _ => 4) (some 100) [0, 0, 1]
      (asyncInit 2)).workersFrames 0 ≤ 6 + 4 := by
  have h := C2_async_redispatch (some 6) (fun _ => 4) (some 100) 2 [0, 0, 1]
    (by decide)
  exact ⟨by decide, (h.2.2 0).1 (by decide), (h.2.2 0).2 6 rfl⟩

/-- C7 counterexample: a worker whose previous message was `continue`
but whose last queue publish SUCCEEDED (`has_timed_out` clear) does NOT
implicitly repeat the message on a poll timeout — it keeps waiting,
contradicting the claim that a timeout after a `Continue` always keeps
producing. -/
theorem C7_timeout_counterexample :
    (workerIter { prevMsg := some CtrlMsg.continueMsg, hasTimedOut := false, j := 0 }
      none false true).2 = WorkerEffect.waited ∧
    isProducingEffect WorkerEffect.waited = false := by
  decide

/-- C7 amended: on a control-channel poll timeout, the worker keeps
waiting whenever `has_timed_out` is clear, regardless of the previous
message; only when the previous queue publish timed out
(`has_timed_out` set) does it implicitly repeat the previous message —
resuming production when that message was `continue`/`continue_random`,
and raising a runtime protocol error otherwise. -/
theorem C7_timeout_amended (st : WorkerState) (postPoll putOk : Bool) :
    (st.hasTimedOut = false →
      workerIter st none postPoll putOk = (st, WorkerEffect.waited)) ∧
    (st.hasTimedOut = true → ∀ m, st.prevMsg = some m →
      (isContinueMsg m = true →
        workerIter st none postPoll putOk = produceBranch st m postPoll putOk) ∧
      (isContinueMsg m = false →
        (workerIter st none postPoll putOk).2 = WorkerEffect.protocolError)) := by
  constructor
  · intro hf
    unfold workerIter
    rw [hf]
    simp
  · intro ht m hm
    unfold workerIter
    rw [ht, hm]
    constructor
    · intro hc
      simp [hc]
    · intro hc
      simp [hc]

/-- Witness for C7 amended: a worker that timed out publishing and whose
previous message was `reset` hits the runtime protocol error on the next
poll timeout. -/
theorem C7_timeout_amended_witness :
    (workerIter { prevMsg := some CtrlMsg.resetMsg, hasTimedOut := true, j := 0 }
      none false true).2 = WorkerEffect.protocolError :=
  ((C7_timeout_amended
    { prevMsg := some CtrlMsg.resetMsg, hasTimedOut := true, j := 0 }
    false true).2 rfl CtrlMsg.resetMsg rfl).2 rfl

lemma setSeedLoop_baseline (K : Nat) :
    ∀ fuel idx s, 1 ≤ fuel → idx + fuel = K →
      setSeedLoop (fun _ t => t) K fuel idx s = s + fuel - 1 := by
  intro fuel
  induction fuel with
  | zero => intro idx s h1 _; omega
  | succ f ih =>
    intro idx s _ hK
    show setSeedLoop (fun _ t => t) K f (idx + 1)
      (if idx < K - 1 then s + 1 else s) = s + (f + 1) - 1
    cases f with
    | zero =>
      have hidx : ¬(idx < K - 1) := by omega
      rw [if_neg hidx]
      rfl
    | succ f2 =>
      have hidx : idx < K - 1 := by omega
      rw [if_pos hidx, ih (idx + 1) (s + 1) (by omega) (by omega)]
      omega

lemma setSeedLoop_sent (ws : Nat → Nat → Nat) (K s : Nat) :
    ∀ fuel idx, 1 ≤ fuel → idx + fuel = K →
      setSeedLoop ws K fuel idx (seedSentTo ws s idx) =
        ws (K - 1) (seedSentTo ws s (K - 1)) := by
  intro fuel
  induction fuel with
  | zero => intro idx h1 _; omega
  | succ f ih =>
    intro idx _ hK
    show setSeedLoop ws K f (idx + 1)
      (if idx < K - 1 then ws idx (seedSentTo ws s idx) + 1
        else ws idx (seedSentTo ws s idx)) = _
    cases f with
    | zero =>
      have hidx : ¬(idx < K - 1) := by omega
      have hidx2 : idx = K - 1 := by omega
      rw [if_neg hidx, hidx2]
      rfl
    | succ f2 =>
      have hidx : idx < K - 1 := by omega
      rw [if_pos hidx]
      have hsent : ws idx (seedSentTo ws s idx) + 1 = seedSentTo ws s (idx + 1) := rfl
      rw [hsent]
      exact ih (idx + 1) (by omega) (by omega)

/-- C8: `_MultiDataCollector.set_seed` seeds the workers sequentially —
worker 0 receives the caller seed and worker `i+1` receives worker `i`-s
returned seed plus one; the overall return value is the last worker's
reply; and with a baseline worker that returns exactly the seed it
received, `set_seed(s)` on `K` workers returns `s + K - 1`. -/
theorem C8_set_seed (workerSeed : Nat → Nat → Nat) (numWorkers s : Nat)
    (hK : 1 ≤ numWorkers) :
    (∀ i, seedSentTo workerSeed s (i + 1) =
      workerSeed i (seedSentTo workerSeed s i) + 1) ∧
    multiSetSeed workerSeed numWorkers s =
      workerSeed (numWorkers - 1) (seedSentTo workerSeed s (numWorkers - 1)) ∧
    multiSetSeed (fun _ t => t) numWorkers s = s + numWorkers - 1 := by
  refine ⟨fun i => rfl, ?_, ?_⟩
  · unfold multiSetSeed
    exact setSeedLoop_sent workerSeed numWorkers s numWorkers 0 hK (by omega)
  · unfold multiSetSeed
    exact setSeedLoop_baseline numWorkers numWorkers 0 s hK (by omega)

/-- Witness for C8: three baseline workers seeded from 5 yield 7. -/
theorem C8_set_seed_witness :
    multiSetSeed (fun _ t => t) 3 5 = 5 + 3 - 1 :=
  (C8_set_seed (fun _ t => t) 3 5 (by decide)).2.2

/-- C9 counterexample: constructing a `SyncDataCollector` with
`reset_at_each_iter = True` together with `split_trajs = True` passes the
eager flag validation — no configuration error is raised, contradicting
the claim. -/
theorem C9_flags_counterexample :
    validateFlags
      { resetAtEachIter := true, splitTrajs := true, returnInPlace := false } =
      Except.ok () := by
  rfl

/-- C9 amended: the eager flag-combination error of
`SyncDataCollector.__init__` fires exactly when `return_in_place` and
`split_trajs` are both set; `reset_at_each_iter` plays no role in it. -/
theorem C9_flags_amended (c : SyncCollectorFlags) :
    exceptIsError (validateFlags c) = (c.returnInPlace && c.splitTrajs) := by
  cases hrp : c.returnInPlace <;> cases hst : c.splitTrajs <;>
    simp [validateFlags, exceptIsError, hrp, hst]

/-- C10: a `total_frames` argument that is not strictly positive
(including the default -1) is normalised to infinity at construction, and
the iterator stop test `self._frames >= total_frames` then never fires
for any finite frame count — collection can only stop through an explicit
shutdown. -/
theorem C10_total_frames (t : Int) (ht : t ≤ 0) :
    normalizeTotalFrames t = none ∧
    ∀ frames : Nat, iterStopCond frames (normalizeTotalFrames t) = false := by
  have hnorm : normalizeTotalFrames t = none := by
    unfold normalizeTotalFrames
    rw [if_neg (by omega)]
  refine ⟨hnorm, fun frames => ?_⟩
  rw [hnorm]
  rfl

/-- Witness for C10 at the default `total_frames = -1`. -/
theorem C10_total_frames_witness :
    normalizeTotalFrames (-1) = none ∧
    iterStopCond 1000000 (normalizeTotalFrames (-1)) = false := by
  have h := C10_total_frames (-1) (by decide)
  exact ⟨h.1, h.2 1000000⟩
